import Mathlib

/-!
# Verification of the Vicharak toy-language parser (`parser.c`)

Shallow embedding of the recursive-descent parser in
`src/Vicharak/files&programs/parser.c`, together with proofs of the
specification's claims about it.

The C file declares the token/AST data model and the grammar-rule
functions `match`, `parseFactor`, `parseExpression`, `parseAssignment`,
`parseDeclaration`, `parseConditional`, `parseProgram`.  Its tokenizer,
`getNextToken`, is an **empty stub** (a known gap the specification
acknowledges and fills with a tokenizer contract), and its parser state
is a single global `currentToken`.

Embedding choices:
* A token stream is a `List Token`; the parser's current token is the
  head of the list (the stream is expected to end with an explicit
  `TOKEN_EOF` token, as the spec's tokenizer contract guarantees).
* Advancing (`getNextToken` as the spec specifies it, not the empty
  stub) moves to the tail of the list.  The literal stub is embedded
  separately as `getNextToken` over `PState` for the claims about it.
* `exit(1)` on a syntax error becomes the `Except` error monad: an
  error aborts the whole parse and propagates to the entry point.
* Reading the uninitialized `stmt` variable in `parseProgram` (the
  missing `else` branch) is undefined behavior in C; it is embedded as
  the distinguished outcome `ParseErr.undefinedStmt`, distinct from the
  explicit syntax errors the code prints.
-/

/-- The `TokenType` enum of `parser.c`, in declaration order. -/
inductive TokenType where
  | TOKEN_INT
  | TOKEN_IDENTIFIER
  | TOKEN_NUMBER
  | TOKEN_ASSIGN
  | TOKEN_PLUS
  | TOKEN_MINUS
  | TOKEN_IF
  | TOKEN_EQUAL
  | TOKEN_LBRACE
  | TOKEN_RBRACE
  | TOKEN_SEMICOLON
  | TOKEN_EOF
  | TOKEN_UNKNOWN
deriving DecidableEq, Repr

open TokenType

/-- The `Token` struct: a kind and its lexeme text. -/
structure Token where
  type : TokenType
  text : String
deriving DecidableEq, Repr

/-- The `Node` struct of `parser.c`: a tag (reusing `TokenType`), the
copied lexeme `value`, and two optional children (`NULL` pointers are
`none`). -/
inductive Node where
  | mk (type : TokenType) (value : String) (left : Option Node) (right : Option Node)

/-- Accessor for the `type` field of a `Node`. -/
def Node.type : Node → TokenType
  | .mk t _ _ _ => t

/-- Accessor for the `value` field of a `Node`. -/
def Node.value : Node → String
  | .mk _ v _ _ => v

/-- Accessor for the `left` child of a `Node`. -/
def Node.left : Node → Option Node
  | .mk _ _ l _ => l

/-- Accessor for the `right` child of a `Node`. -/
def Node.right : Node → Option Node
  | .mk _ _ _ r => r

/-- `createNode`: allocate a node from a token, copying its type and
text, with both children `NULL`. -/
def createNode (token : Token) : Node :=
  .mk token.type token.text none none

/-- The observable failure outcomes of the parser.

* `SyntaxError expected got` — `match` printed
  "Syntax error: expected token %d but got %d" and exited.
* `expectedFactor` — `parseFactor` printed
  "Syntax error: expected a number or identifier" and exited.
* `undefinedStmt got` — `parseProgram`'s statement dispatch fell
  through all three `if` branches, leaving `stmt` uninitialized; the
  subsequent read of `stmt->value` is undefined behavior, embedded as
  this distinguished non-`SyntaxError` outcome. -/
inductive ParseErr where
  | SyntaxError (expected got : TokenType)
  | expectedFactor
  | undefinedStmt (got : TokenType)
deriving DecidableEq, Repr

/-- The explicit parser state of the C program: the global
`currentToken`, plus the not-yet-fetched remainder of the token
stream (abstracting the `FILE *` the tokenizer would read). -/
structure PState where
  cur : Token
  toks : List Token
deriving DecidableEq, Repr

/-- The literal `getNextToken` of `parser.c`: its body is empty, so it
changes nothing — in particular it never changes `currentToken`. -/
def getNextToken (s : PState) : PState := s

/-- The literal `match` of `parser.c`, over the explicit state: on a
kind match it calls the (empty) `getNextToken`; otherwise it reports a
syntax error naming the expected and actual kinds and exits. -/
def matchC (expected : TokenType) (s : PState) : Except ParseErr PState :=
  if s.cur.type = expected then .ok (getNextToken s)
  else .error (.SyntaxError expected s.cur.type)

/-- The token whose kind is `TOKEN_EOF`, produced at end of input. -/
def eofTok : Token := ⟨TOKEN_EOF, ""⟩

/-- The current token of a stream: its head, or end-of-input. -/
def currentTok : List Token → Token
  | [] => eofTok
  | t :: _ => t

/-- An identifier token with its lexeme. -/
def idTok (s : String) : Token := ⟨TOKEN_IDENTIFIER, s⟩

/-- A number token with its digits. -/
def numTok (s : String) : Token := ⟨TOKEN_NUMBER, s⟩

/-- The `int` keyword token. -/
def intTok : Token := ⟨TOKEN_INT, "int"⟩

/-- The `if` keyword token. -/
def ifTok : Token := ⟨TOKEN_IF, "if"⟩

/-- The `=` token (fixed-symbol kinds carry an empty lexeme). -/
def assignTok : Token := ⟨TOKEN_ASSIGN, ""⟩

/-- The `+` token. -/
def plusTok : Token := ⟨TOKEN_PLUS, ""⟩

/-- The `-` token. -/
def minusTok : Token := ⟨TOKEN_MINUS, ""⟩

/-- The `==` token. -/
def equalTok : Token := ⟨TOKEN_EQUAL, ""⟩

/-- The `{` token. -/
def lbraceTok : Token := ⟨TOKEN_LBRACE, ""⟩

/-- The `}` token. -/
def rbraceTok : Token := ⟨TOKEN_RBRACE, ""⟩

/-- The `;` token. -/
def semiTok : Token := ⟨TOKEN_SEMICOLON, ""⟩

/-- Token stream of `"if { a == b } { x = 1; }"`. -/
def condToks : List Token :=
  [ifTok, lbraceTok, idTok "a", equalTok, idTok "b", rbraceTok,
   lbraceTok, idTok "x", assignTok, numTok "1", semiTok, rbraceTok, eofTok]

/-- Token stream of `"a + b - c"`. -/
def exprToks : List Token :=
  [idTok "a", plusTok, idTok "b", minusTok, idTok "c", eofTok]

/-- Token stream of `"int x;"`. -/
def declToks : List Token := [intTok, idTok "x", semiTok, eofTok]

/-- Token stream of `"x = 1 + 2;"`. -/
def assignToks : List Token :=
  [idTok "x", assignTok, numTok "1", plusTok, numTok "2", semiTok, eofTok]

/-- Token stream of `"x = 1;"`. -/
def assign1Toks : List Token := [idTok "x", assignTok, numTok "1", semiTok, eofTok]

/-- Token stream of `"x = 2;"`. -/
def assign2Toks : List Token := [idTok "x", assignTok, numTok "2", semiTok, eofTok]

/-- Token stream of `"int 5;"`. -/
def int5Toks : List Token := [intTok, numTok "5", semiTok, eofTok]

/-- The structural invariant of the spec's node model, checked over a
whole tree: every binary-operator (`+`/`-`) node has both children
present (the children themselves are checked recursively). -/
def binInv : Node → Bool
  | .mk t _ l r =>
    (!(decide (t = TOKEN_PLUS) || decide (t = TOKEN_MINUS)) || (l.isSome && r.isSome))
    && (match l with
        | none => true
        | some c => binInv c)
    && (match r with
        | none => true
        | some c => binInv c)

/-- The token stream of an operator/factor chain: operator token, then
factor token, repeating. -/
def opChainToks : List (Token × Token) → List Token
  | [] => []
  | (op, f) :: ps => op :: f :: opChainToks ps

/-- The left-deep tree an operator chain should build: each step wraps
the tree built so far as the *left* child of a new operator node whose
right child is the next factor's leaf. -/
def leftChain (first : Node) : List (Token × Token) → Node
  | [] => first
  | (op, f) :: ps => leftChain (.mk op.type op.text (some first) (some (createNode f))) ps

/-- Modelled from the spec: the reference `getNextToken` is an empty
stub (the unimplemented tokenizer the spec lists as a known gap); the
spec's tokenizer contract makes `expect`/`match` *advance* — "fetch
next token from Tokenizer" — on success.  Over the list embedding,
advancing past the current token is taking the tail; `match` with the
advance behaves as below. -/
def matchTok (expected : TokenType) : List Token → Except ParseErr (List Token)
  | [] => .error (.SyntaxError expected TOKEN_EOF)
  | t :: ts =>
    if t.type = expected then .ok ts
    else .error (.SyntaxError expected t.type)

/-- `parseFactor`: build a leaf from the current token; if it is a
number or identifier, consume it (the C calls
`match(currentToken.type, file)`, which always succeeds and advances),
otherwise report an error and exit. -/
def parseFactor : List Token → Except ParseErr (Node × List Token)
  | [] => .error .expectedFactor
  | t :: ts =>
    if t.type = TOKEN_NUMBER ∨ t.type = TOKEN_IDENTIFIER then
      .ok (createNode t, ts)
    else .error .expectedFactor

theorem parseFactor_ok {ts rest : List Token} {n : Node}
    (h : parseFactor ts = .ok (n, rest)) :
    ts = currentTok ts :: rest ∧ n = createNode (currentTok ts) ∧
      ((currentTok ts).type = TOKEN_NUMBER ∨ (currentTok ts).type = TOKEN_IDENTIFIER) := by
  match ts with
  | [] => exact absurd h (by simp [parseFactor])
  | t :: ts' =>
    simp only [parseFactor] at h
    split at h
    · simp only [Except.ok.injEq, Prod.mk.injEq] at h
      obtain ⟨h1, h2⟩ := h
      subst h1; subst h2
      exact ⟨rfl, rfl, ‹_›⟩
    · exact absurd h (by simp)

theorem parseFactor_length {ts rest : List Token} {n : Node}
    (h : parseFactor ts = .ok (n, rest)) : rest.length < ts.length := by
  rw [(parseFactor_ok h).1]
  simp

/-- The `while` loop of `parseExpression`: while the current token is
`+` or `-`, capture the operator, consume it (`match`), build an
operator node whose left child is the expression built so far and
whose right child is the next `parseFactor`. -/
def parseExprLoop (node : Node) : List Token → Except ParseErr (Node × List Token)
  | [] => .ok (node, [])
  | t :: ts =>
    if t.type = TOKEN_PLUS ∨ t.type = TOKEN_MINUS then
      match h : parseFactor ts with
      | .error e => .error e
      | .ok (rhs, rest) =>
        parseExprLoop (.mk t.type t.text (some node) (some rhs)) rest
    else .ok (node, t :: ts)
termination_by ts => ts.length
decreasing_by
  exact Nat.lt_trans (parseFactor_length h) (by simp)

/-- `parseExpression`: one `parseFactor`, then the operator loop. -/
def parseExpression (ts : List Token) : Except ParseErr (Node × List Token) :=
  match parseFactor ts with
  | .error e => .error e
  | .ok (node, rest) => parseExprLoop node rest

theorem matchTok_ok {k : TokenType} {ts r : List Token}
    (h : matchTok k ts = .ok r) :
    ts = currentTok ts :: r ∧ (currentTok ts).type = k := by
  match ts with
  | [] => exact absurd h (by simp [matchTok])
  | t :: ts' =>
    simp only [matchTok] at h
    split at h
    · simp only [Except.ok.injEq] at h
      subst h
      exact ⟨rfl, ‹_›⟩
    · exact absurd h (by simp)

theorem matchTok_length {k : TokenType} {ts r : List Token}
    (h : matchTok k ts = .ok r) : r.length < ts.length := by
  rw [(matchTok_ok h).1]
  simp

theorem parseExprLoop_length {n m : Node} {ts r : List Token}
    (h : parseExprLoop n ts = .ok (m, r)) : r.length ≤ ts.length := by
  induction n, ts using parseExprLoop.induct generalizing m r with
  | case1 n =>
    simp only [parseExprLoop, Except.ok.injEq, Prod.mk.injEq] at h
    simp [h.2]
  | case2 n t ts hop e hf =>
    rw [parseExprLoop, if_pos hop] at h
    split at h
    · exact absurd h (by simp)
    · next rhs rest heq =>
      rw [hf] at heq
      exact absurd heq (by simp)
  | case3 n t ts hop rhs rest hf ih =>
    rw [parseExprLoop, if_pos hop] at h
    split at h
    · next e heq =>
      rw [hf] at heq
      exact absurd heq (by simp)
    · next rhs' rest' heq =>
      rw [hf] at heq
      simp only [Except.ok.injEq, Prod.mk.injEq] at heq
      obtain ⟨e1, e2⟩ := heq
      subst e1; subst e2
      have h1 := parseFactor_length hf
      have h2 := ih h
      simp only [List.length_cons]
      omega
  | case4 n t ts hop =>
    rw [parseExprLoop] at h
    simp only [hop, if_false] at h
    simp only [Except.ok.injEq, Prod.mk.injEq] at h
    simp [h.2]

theorem parseExpression_length {n : Node} {ts r : List Token}
    (h : parseExpression ts = .ok (n, r)) : r.length < ts.length := by
  unfold parseExpression at h
  split at h
  · exact absurd h (by simp)
  · next node rest hf =>
    exact Nat.lt_of_le_of_lt (parseExprLoop_length h) (parseFactor_length hf)

/-- `parseAssignment`: build a node from the current (identifier)
token, `match` the identifier and `=`, set the node's right child to
the `parseExpression` result, `match` `;`. -/
def parseAssignment (ts : List Token) : Except ParseErr (Node × List Token) :=
  let node := createNode (currentTok ts)
  match matchTok TOKEN_IDENTIFIER ts with
  | .error e => .error e
  | .ok r1 =>
    match matchTok TOKEN_ASSIGN r1 with
    | .error e => .error e
    | .ok r2 =>
      match parseExpression r2 with
      | .error e => .error e
      | .ok (rhs, r3) =>
        match matchTok TOKEN_SEMICOLON r3 with
        | .error e => .error e
        | .ok r4 => .ok (.mk node.type node.value node.left (some rhs), r4)

/-- `parseDeclaration`: `match` `int`, build a leaf from the current
(identifier) token, `match` the identifier, `match` `;`. -/
def parseDeclaration (ts : List Token) : Except ParseErr (Node × List Token) :=
  match matchTok TOKEN_INT ts with
  | .error e => .error e
  | .ok r1 =>
    let node := createNode (currentTok r1)
    match matchTok TOKEN_IDENTIFIER r1 with
    | .error e => .error e
    | .ok r2 =>
      match matchTok TOKEN_SEMICOLON r2 with
      | .error e => .error e
      | .ok r3 => .ok (node, r3)

/-- `parseConditional`: `match` `if` and `{`, build a node from the
current token, parse the comparison's left expression into
`node->left`, `match` `==`, parse the right expression into
`node->right`, `match` `}` and `{`, parse the body assignment — the C
then executes `node->left = body`, **overwriting** the comparison's
left subtree (which is dropped) — and finally `match` `}`. -/
def parseConditional (ts : List Token) : Except ParseErr (Node × List Token) :=
  match matchTok TOKEN_IF ts with
  | .error e => .error e
  | .ok r1 =>
    match matchTok TOKEN_LBRACE r1 with
    | .error e => .error e
    | .ok r2 =>
      let node := createNode (currentTok r2)
      match parseExpression r2 with
      | .error e => .error e
      | .ok (_condLeft, r3) =>
        match matchTok TOKEN_EQUAL r3 with
        | .error e => .error e
        | .ok r4 =>
          match parseExpression r4 with
          | .error e => .error e
          | .ok (condRight, r5) =>
            match matchTok TOKEN_RBRACE r5 with
            | .error e => .error e
            | .ok r6 =>
              match matchTok TOKEN_LBRACE r6 with
              | .error e => .error e
              | .ok r7 =>
                match parseAssignment r7 with
                | .error e => .error e
                | .ok (body, r8) =>
                  match matchTok TOKEN_RBRACE r8 with
                  | .error e => .error e
                  | .ok r9 =>
                    .ok (.mk node.type node.value (some body) (some condRight), r9)

theorem parseAssignment_length {ts r : List Token} {n : Node}
    (h : parseAssignment ts = .ok (n, r)) : r.length < ts.length := by
  unfold parseAssignment at h
  split at h
  · exact absurd h (by simp)
  next r1 h1 =>
  split at h
  · exact absurd h (by simp)
  next r2 h2 =>
  split at h
  · exact absurd h (by simp)
  next rhs r3 h3 =>
  split at h
  · exact absurd h (by simp)
  next r4 h4 =>
  simp only [Except.ok.injEq, Prod.mk.injEq] at h
  have l1 := matchTok_length h1
  have l2 := matchTok_length h2
  have l3 := parseExpression_length h3
  have l4 := matchTok_length h4
  rw [← h.2] at *
  omega

theorem parseDeclaration_length {ts r : List Token} {n : Node}
    (h : parseDeclaration ts = .ok (n, r)) : r.length < ts.length := by
  unfold parseDeclaration at h
  split at h
  · exact absurd h (by simp)
  next r1 h1 =>
  split at h
  · exact absurd h (by simp)
  next r2 h2 =>
  split at h
  · exact absurd h (by simp)
  next r3 h3 =>
  simp only [Except.ok.injEq, Prod.mk.injEq] at h
  have l1 := matchTok_length h1
  have l2 := matchTok_length h2
  have l3 := matchTok_length h3
  rw [← h.2] at *
  omega

theorem parseConditional_length {ts r : List Token} {n : Node}
    (h : parseConditional ts = .ok (n, r)) : r.length < ts.length := by
  unfold parseConditional at h
  split at h
  · exact absurd h (by simp)
  next r1 h1 =>
  split at h
  · exact absurd h (by simp)
  next r2 h2 =>
  split at h
  · exact absurd h (by simp)
  next cl r3 h3 =>
  split at h
  · exact absurd h (by simp)
  next r4 h4 =>
  split at h
  · exact absurd h (by simp)
  next cr r5 h5 =>
  split at h
  · exact absurd h (by simp)
  next r6 h6 =>
  split at h
  · exact absurd h (by simp)
  next r7 h7 =>
  split at h
  · exact absurd h (by simp)
  next body r8 h8 =>
  split at h
  · exact absurd h (by simp)
  next r9 h9 =>
  simp only [Except.ok.injEq, Prod.mk.injEq] at h
  have l1 := matchTok_length h1
  have l2 := matchTok_length h2
  have l3 := parseExpression_length h3
  have l4 := matchTok_length h4
  have l5 := parseExpression_length h5
  have l6 := matchTok_length h6
  have l7 := matchTok_length h7
  have l8 := parseAssignment_length h8
  have l9 := matchTok_length h9
  rw [← h.2] at *
  omega

/-- The `while` loop of `parseProgram`, embedded with its observable
output: the C prints `"Parsed statement with root: %s"` with
`stmt->value` after each statement and discards the statement tree, so
the loop's result is the list of printed root values.  The dispatch is
the literal `if`/`else if` chain on the current token's kind: `Int` →
`parseDeclaration`, `If` → `parseConditional`, `Identifier` →
`parseAssignment`; there is **no** `else` branch, so any other kind
leaves `stmt` uninitialized and the `printf` reads it — undefined
behavior, embedded as the `undefinedStmt` outcome. -/
def parseProgram (ts : List Token) : Except ParseErr (List String) :=
  if (currentTok ts).type = TOKEN_EOF then .ok []
  else if (currentTok ts).type = TOKEN_INT then
    match h : parseDeclaration ts with
    | .error e => .error e
    | .ok (stmt, r) =>
      match parseProgram r with
      | .error e => .error e
      | .ok out => .ok (stmt.value :: out)
  else if (currentTok ts).type = TOKEN_IF then
    match h : parseConditional ts with
    | .error e => .error e
    | .ok (stmt, r) =>
      match parseProgram r with
      | .error e => .error e
      | .ok out => .ok (stmt.value :: out)
  else if (currentTok ts).type = TOKEN_IDENTIFIER then
    match h : parseAssignment ts with
    | .error e => .error e
    | .ok (stmt, r) =>
      match parseProgram r with
      | .error e => .error e
      | .ok out => .ok (stmt.value :: out)
  else .error (.undefinedStmt (currentTok ts).type)
termination_by ts.length
decreasing_by
  · exact parseDeclaration_length h
  · exact parseConditional_length h
  · exact parseAssignment_length h

/-- Following the spec's words ("an ordered sequence of top-level
statement AST roots, one per parsed `Statement`, in source order"):
the same loop and dispatch as `parseProgram`, but delivering the
statement trees themselves instead of the printed root values.  This
is the spec-side definition `parseProgram` is compared against. -/
def parseStmts (ts : List Token) : Except ParseErr (List Node) :=
  if (currentTok ts).type = TOKEN_EOF then .ok []
  else if (currentTok ts).type = TOKEN_INT then
    match h : parseDeclaration ts with
    | .error e => .error e
    | .ok (stmt, r) =>
      match parseStmts r with
      | .error e => .error e
      | .ok out => .ok (stmt :: out)
  else if (currentTok ts).type = TOKEN_IF then
    match h : parseConditional ts with
    | .error e => .error e
    | .ok (stmt, r) =>
      match parseStmts r with
      | .error e => .error e
      | .ok out => .ok (stmt :: out)
  else if (currentTok ts).type = TOKEN_IDENTIFIER then
    match h : parseAssignment ts with
    | .error e => .error e
    | .ok (stmt, r) =>
      match parseStmts r with
      | .error e => .error e
      | .ok out => .ok (stmt :: out)
  else .error (.undefinedStmt (currentTok ts).type)
termination_by ts.length
decreasing_by
  · exact parseDeclaration_length h
  · exact parseConditional_length h
  · exact parseAssignment_length h

/-- Modelled from the spec: `getNextToken` as the spec's tokenizer
contract describes it — fetch the next token of the stream into the
current-token slot (or `EndOfInput` past the end), discarding whatever
the slot held. -/
def nextTokenSpec (s : PState) : PState :=
  match s.toks with
  | [] => { cur := eofTok, toks := [] }
  | t :: ts => { cur := t, toks := ts }

/-- The entry point `parseProgram` as called from `main`, over the
explicit global state: its first action is `getNextToken(file)`
(loading the first stream token into the global `currentToken` slot);
the loop then runs on the resulting current token and stream, which
the list embedding represents as `cur :: toks`. -/
def parseProgramFromState (s : PState) : Except ParseErr (List String) :=
  let s1 := nextTokenSpec s
  parseProgram (s1.cur :: s1.toks)

/-- The same entry sequence delivering the statement trees (the
`parseStmts` view of the loop), for comparing the trees two runs
build. -/
def parseStmtsFromState (s : PState) : Except ParseErr (List Node) :=
  let s1 := nextTokenSpec s
  parseStmts (s1.cur :: s1.toks)

theorem parseProgram_eof {ts : List Token} (h : (currentTok ts).type = TOKEN_EOF) :
    parseProgram ts = .ok [] := by
  rw [parseProgram]
  simp [h]

theorem parseProgram_undef {ts : List Token}
    (h0 : (currentTok ts).type ≠ TOKEN_EOF) (h1 : (currentTok ts).type ≠ TOKEN_INT)
    (h2 : (currentTok ts).type ≠ TOKEN_IF) (h3 : (currentTok ts).type ≠ TOKEN_IDENTIFIER) :
    parseProgram ts = .error (.undefinedStmt (currentTok ts).type) := by
  rw [parseProgram]
  simp [h0, h1, h2, h3]

theorem parseProgram_int_err {ts : List Token} {e : ParseErr}
    (hk : (currentTok ts).type = TOKEN_INT) (hd : parseDeclaration ts = .error e) :
    parseProgram ts = .error e := by
  rw [parseProgram]
  simp only [hk, reduceCtorEq, if_false, if_true, ite_false, ite_true]
  split
  · next e' heq =>
    rw [hd] at heq
    simp only [Except.error.injEq] at heq
    rw [heq]
  · next stmt' r' heq =>
    rw [hd] at heq
    exact absurd heq (by simp)

theorem parseProgram_int_ok {ts r : List Token} {stmt : Node}
    (hk : (currentTok ts).type = TOKEN_INT) (hd : parseDeclaration ts = .ok (stmt, r)) :
    parseProgram ts = (parseProgram r).map (fun out => stmt.value :: out) := by
  rw [parseProgram]
  simp only [hk, reduceCtorEq, if_false, if_true, ite_false, ite_true]
  split
  · next e' heq =>
    rw [hd] at heq
    exact absurd heq (by simp)
  · next stmt' r' heq =>
    rw [hd] at heq
    simp only [Except.ok.injEq, Prod.mk.injEq] at heq
    obtain ⟨e1, e2⟩ := heq
    subst e1; subst e2
    cases parseProgram r <;> simp [Except.map]

theorem parseProgram_if_err {ts : List Token} {e : ParseErr}
    (hk : (currentTok ts).type = TOKEN_IF) (hd : parseConditional ts = .error e) :
    parseProgram ts = .error e := by
  rw [parseProgram]
  simp only [hk, reduceCtorEq, eq_self_iff_true, if_false, if_true, ite_false, ite_true]
  split
  · next e' heq =>
    rw [hd] at heq
    simp only [Except.error.injEq] at heq
    rw [heq]
  · next stmt' r' heq =>
    rw [hd] at heq
    exact absurd heq (by simp)

theorem parseProgram_if_ok {ts r : List Token} {stmt : Node}
    (hk : (currentTok ts).type = TOKEN_IF) (hd : parseConditional ts = .ok (stmt, r)) :
    parseProgram ts = (parseProgram r).map (fun out => stmt.value :: out) := by
  rw [parseProgram]
  simp only [hk, reduceCtorEq, eq_self_iff_true, if_false, if_true, ite_false, ite_true]
  split
  · next e' heq =>
    rw [hd] at heq
    exact absurd heq (by simp)
  · next stmt' r' heq =>
    rw [hd] at heq
    simp only [Except.ok.injEq, Prod.mk.injEq] at heq
    obtain ⟨e1, e2⟩ := heq
    subst e1; subst e2
    cases parseProgram r <;> simp [Except.map]

theorem parseProgram_ident_err {ts : List Token} {e : ParseErr}
    (hk : (currentTok ts).type = TOKEN_IDENTIFIER) (hd : parseAssignment ts = .error e) :
    parseProgram ts = .error e := by
  rw [parseProgram]
  simp only [hk, reduceCtorEq, eq_self_iff_true, if_false, if_true, ite_false, ite_true]
  split
  · next e' heq =>
    rw [hd] at heq
    simp only [Except.error.injEq] at heq
    rw [heq]
  · next stmt' r' heq =>
    rw [hd] at heq
    exact absurd heq (by simp)

theorem parseProgram_ident_ok {ts r : List Token} {stmt : Node}
    (hk : (currentTok ts).type = TOKEN_IDENTIFIER) (hd : parseAssignment ts = .ok (stmt, r)) :
    parseProgram ts = (parseProgram r).map (fun out => stmt.value :: out) := by
  rw [parseProgram]
  simp only [hk, reduceCtorEq, eq_self_iff_true, if_false, if_true, ite_false, ite_true]
  split
  · next e' heq =>
    rw [hd] at heq
    exact absurd heq (by simp)
  · next stmt' r' heq =>
    rw [hd] at heq
    simp only [Except.ok.injEq, Prod.mk.injEq] at heq
    obtain ⟨e1, e2⟩ := heq
    subst e1; subst e2
    cases parseProgram r <;> simp [Except.map]

theorem parseStmts_eof {ts : List Token} (h : (currentTok ts).type = TOKEN_EOF) :
    parseStmts ts = .ok [] := by
  rw [parseStmts]
  simp [h]

theorem parseStmts_undef {ts : List Token}
    (h0 : (currentTok ts).type ≠ TOKEN_EOF) (h1 : (currentTok ts).type ≠ TOKEN_INT)
    (h2 : (currentTok ts).type ≠ TOKEN_IF) (h3 : (currentTok ts).type ≠ TOKEN_IDENTIFIER) :
    parseStmts ts = .error (.undefinedStmt (currentTok ts).type) := by
  rw [parseStmts]
  simp [h0, h1, h2, h3]

theorem parseStmts_int_err {ts : List Token} {e : ParseErr}
    (hk : (currentTok ts).type = TOKEN_INT) (hd : parseDeclaration ts = .error e) :
    parseStmts ts = .error e := by
  rw [parseStmts]
  simp only [hk, reduceCtorEq, eq_self_iff_true, if_false, if_true, ite_false, ite_true]
  split
  · next e' heq =>
    rw [hd] at heq
    simp only [Except.error.injEq] at heq
    rw [heq]
  · next stmt' r' heq =>
    rw [hd] at heq
    exact absurd heq (by simp)

theorem parseStmts_int_ok {ts r : List Token} {stmt : Node}
    (hk : (currentTok ts).type = TOKEN_INT) (hd : parseDeclaration ts = .ok (stmt, r)) :
    parseStmts ts = (parseStmts r).map (fun out => stmt :: out) := by
  rw [parseStmts]
  simp only [hk, reduceCtorEq, eq_self_iff_true, if_false, if_true, ite_false, ite_true]
  split
  · next e' heq =>
    rw [hd] at heq
    exact absurd heq (by simp)
  · next stmt' r' heq =>
    rw [hd] at heq
    simp only [Except.ok.injEq, Prod.mk.injEq] at heq
    obtain ⟨e1, e2⟩ := heq
    subst e1; subst e2
    cases parseStmts r <;> simp [Except.map]

theorem parseStmts_if_err {ts : List Token} {e : ParseErr}
    (hk : (currentTok ts).type = TOKEN_IF) (hd : parseConditional ts = .error e) :
    parseStmts ts = .error e := by
  rw [parseStmts]
  simp only [hk, reduceCtorEq, eq_self_iff_true, if_false, if_true, ite_false, ite_true]
  split
  · next e' heq =>
    rw [hd] at heq
    simp only [Except.error.injEq] at heq
    rw [heq]
  · next stmt' r' heq =>
    rw [hd] at heq
    exact absurd heq (by simp)

theorem parseStmts_if_ok {ts r : List Token} {stmt : Node}
    (hk : (currentTok ts).type = TOKEN_IF) (hd : parseConditional ts = .ok (stmt, r)) :
    parseStmts ts = (parseStmts r).map (fun out => stmt :: out) := by
  rw [parseStmts]
  simp only [hk, reduceCtorEq, eq_self_iff_true, if_false, if_true, ite_false, ite_true]
  split
  · next e' heq =>
    rw [hd] at heq
    exact absurd heq (by simp)
  · next stmt' r' heq =>
    rw [hd] at heq
    simp only [Except.ok.injEq, Prod.mk.injEq] at heq
    obtain ⟨e1, e2⟩ := heq
    subst e1; subst e2
    cases parseStmts r <;> simp [Except.map]

theorem parseStmts_ident_err {ts : List Token} {e : ParseErr}
    (hk : (currentTok ts).type = TOKEN_IDENTIFIER) (hd : parseAssignment ts = .error e) :
    parseStmts ts = .error e := by
  rw [parseStmts]
  simp only [hk, reduceCtorEq, eq_self_iff_true, if_false, if_true, ite_false, ite_true]
  split
  · next e' heq =>
    rw [hd] at heq
    simp only [Except.error.injEq] at heq
    rw [heq]
  · next stmt' r' heq =>
    rw [hd] at heq
    exact absurd heq (by simp)

theorem parseStmts_ident_ok {ts r : List Token} {stmt : Node}
    (hk : (currentTok ts).type = TOKEN_IDENTIFIER) (hd : parseAssignment ts = .ok (stmt, r)) :
    parseStmts ts = (parseStmts r).map (fun out => stmt :: out) := by
  rw [parseStmts]
  simp only [hk, reduceCtorEq, eq_self_iff_true, if_false, if_true, ite_false, ite_true]
  split
  · next e' heq =>
    rw [hd] at heq
    exact absurd heq (by simp)
  · next stmt' r' heq =>
    rw [hd] at heq
    simp only [Except.ok.injEq, Prod.mk.injEq] at heq
    obtain ⟨e1, e2⟩ := heq
    subst e1; subst e2
    cases parseStmts r <;> simp [Except.map]

theorem parseExprLoop_chain (ps : List (Token × Token)) :
    ∀ (acc : Node) (rest : List Token),
      (∀ p ∈ ps, (p.1.type = TOKEN_PLUS ∨ p.1.type = TOKEN_MINUS) ∧
                 (p.2.type = TOKEN_NUMBER ∨ p.2.type = TOKEN_IDENTIFIER)) →
      ¬((currentTok rest).type = TOKEN_PLUS ∨ (currentTok rest).type = TOKEN_MINUS) →
      parseExprLoop acc (opChainToks ps ++ rest) = .ok (leftChain acc ps, rest) := by
  induction ps with
  | nil =>
    intro acc rest _ hrest
    simp only [opChainToks, List.nil_append, leftChain]
    match rest with
    | [] => rw [parseExprLoop]
    | t :: rest' =>
      rw [parseExprLoop]
      simp only [currentTok] at hrest
      simp [hrest]
  | cons p ps' ih =>
    intro acc rest hps hrest
    obtain ⟨op, f⟩ := p
    have hop := (hps (op, f) (by simp)).1
    have hf := (hps (op, f) (by simp)).2
    have hfac : parseFactor (f :: (opChainToks ps' ++ rest)) =
        .ok (createNode f, opChainToks ps' ++ rest) := by
      simp [parseFactor, hf]
    simp only [opChainToks, List.cons_append]
    rw [parseExprLoop, if_pos hop]
    split
    · next e heq =>
      rw [hfac] at heq
      exact absurd heq (by simp)
    · next rhs' rest' heq =>
      rw [hfac] at heq
      simp only [Except.ok.injEq, Prod.mk.injEq] at heq
      obtain ⟨e1, e2⟩ := heq
      subst e1; subst e2
      simp only [leftChain]
      exact ih _ rest (fun q hq => hps q (by simp [hq])) hrest

theorem parseExpression_chain (f0 : Token) (ps : List (Token × Token)) (rest : List Token)
    (hf0 : f0.type = TOKEN_NUMBER ∨ f0.type = TOKEN_IDENTIFIER)
    (hps : ∀ p ∈ ps, (p.1.type = TOKEN_PLUS ∨ p.1.type = TOKEN_MINUS) ∧
                     (p.2.type = TOKEN_NUMBER ∨ p.2.type = TOKEN_IDENTIFIER))
    (hrest : ¬((currentTok rest).type = TOKEN_PLUS ∨ (currentTok rest).type = TOKEN_MINUS)) :
    parseExpression (f0 :: (opChainToks ps ++ rest)) =
      .ok (leftChain (createNode f0) ps, rest) := by
  unfold parseExpression
  have hfac : parseFactor (f0 :: (opChainToks ps ++ rest)) =
      .ok (createNode f0, opChainToks ps ++ rest) := by
    simp [parseFactor, hf0]
  rw [hfac]
  exact parseExprLoop_chain ps (createNode f0) rest hps hrest

theorem binInv_leafKind {tok : Token}
    (h : tok.type = TOKEN_NUMBER ∨ tok.type = TOKEN_IDENTIFIER) :
    binInv (createNode tok) = true := by
  rcases h with h | h <;> simp [binInv, createNode, h]

theorem parseExprLoop_inv (acc : Node) (ts : List Token) :
    binInv acc = true → ∀ {n : Node} {r : List Token},
      parseExprLoop acc ts = .ok (n, r) → binInv n = true := by
  induction acc, ts using parseExprLoop.induct with
  | case1 node =>
    intro hacc n r h
    rw [parseExprLoop] at h
    simp only [Except.ok.injEq, Prod.mk.injEq] at h
    exact h.1 ▸ hacc
  | case2 node t ts hop e hf =>
    intro hacc n r h
    rw [parseExprLoop, if_pos hop] at h
    split at h
    · exact absurd h (by simp)
    · next rhs' rest' heq =>
      rw [hf] at heq
      exact absurd heq (by simp)
  | case3 node t ts hop rhs rest hf ih =>
    intro hacc n r h
    rw [parseExprLoop, if_pos hop] at h
    split at h
    · next e heq =>
      rw [hf] at heq
      exact absurd heq (by simp)
    · next rhs' rest' heq =>
      rw [hf] at heq
      simp only [Except.ok.injEq, Prod.mk.injEq] at heq
      obtain ⟨e1, e2⟩ := heq
      subst e1; subst e2
      have hrhs : binInv rhs = true := by
        rw [(parseFactor_ok hf).2.1]
        exact binInv_leafKind (parseFactor_ok hf).2.2
      have hnew : binInv (.mk t.type t.text (some node) (some rhs)) = true := by
        simp [binInv, hacc, hrhs]
      exact ih hnew h
  | case4 node t ts hop =>
    intro hacc n r h
    rw [parseExprLoop, if_neg hop] at h
    simp only [Except.ok.injEq, Prod.mk.injEq] at h
    exact h.1 ▸ hacc

theorem parseExpression_inv {ts r : List Token} {n : Node}
    (h : parseExpression ts = .ok (n, r)) : binInv n = true := by
  unfold parseExpression at h
  split at h
  · exact absurd h (by simp)
  · next node rest heq =>
    have hok := parseFactor_ok heq
    refine parseExprLoop_inv node rest ?_ h
    rw [hok.2.1]
    exact binInv_leafKind hok.2.2

theorem parseExpression_head {ts r : List Token} {n : Node}
    (h : parseExpression ts = .ok (n, r)) :
    (currentTok ts).type = TOKEN_NUMBER ∨ (currentTok ts).type = TOKEN_IDENTIFIER := by
  unfold parseExpression at h
  split at h
  · exact absurd h (by simp)
  · next node rest heq => exact (parseFactor_ok heq).2.2

theorem parseAssignment_inv {ts r : List Token} {n : Node}
    (h : parseAssignment ts = .ok (n, r)) :
    binInv n = true ∧ n.type = TOKEN_IDENTIFIER ∧ n.left = none := by
  unfold parseAssignment at h
  split at h
  · exact absurd h (by simp)
  next r1 h1 =>
  split at h
  · exact absurd h (by simp)
  next r2 h2 =>
  split at h
  · exact absurd h (by simp)
  next rhs r3 h3 =>
  split at h
  · exact absurd h (by simp)
  next r4 h4 =>
  simp only [Except.ok.injEq, Prod.mk.injEq] at h
  have hid := (matchTok_ok h1).2
  have hrhs := parseExpression_inv h3
  rw [← h.1]
  simp [createNode, Node.type, Node.value, Node.left, binInv, hid, hrhs]

theorem parseDeclaration_shape {ts r : List Token} {n : Node}
    (h : parseDeclaration ts = .ok (n, r)) :
    n.left = none ∧ n.right = none ∧ binInv n = true ∧ n.type = TOKEN_IDENTIFIER := by
  unfold parseDeclaration at h
  split at h
  · exact absurd h (by simp)
  next r1 h1 =>
  split at h
  · exact absurd h (by simp)
  next r2 h2 =>
  split at h
  · exact absurd h (by simp)
  next r3 h3 =>
  simp only [Except.ok.injEq, Prod.mk.injEq] at h
  have hid := (matchTok_ok h2).2
  rw [← h.1]
  simp [createNode, Node.type, Node.left, Node.right, binInv, hid]

theorem parseConditional_inv {ts r : List Token} {n : Node}
    (h : parseConditional ts = .ok (n, r)) : binInv n = true := by
  unfold parseConditional at h
  split at h
  · exact absurd h (by simp)
  next r1 h1 =>
  split at h
  · exact absurd h (by simp)
  next r2 h2 =>
  split at h
  · exact absurd h (by simp)
  next cl r3 h3 =>
  split at h
  · exact absurd h (by simp)
  next r4 h4 =>
  split at h
  · exact absurd h (by simp)
  next cr r5 h5 =>
  split at h
  · exact absurd h (by simp)
  next r6 h6 =>
  split at h
  · exact absurd h (by simp)
  next r7 h7 =>
  split at h
  · exact absurd h (by simp)
  next body r8 h8 =>
  split at h
  · exact absurd h (by simp)
  next r9 h9 =>
  simp only [Except.ok.injEq, Prod.mk.injEq] at h
  have hhead := parseExpression_head h3
  have hcr := parseExpression_inv h5
  have hbody := (parseAssignment_inv h8).1
  rw [← h.1]
  rcases hhead with hh | hh <;>
    simp [createNode, Node.type, Node.value, binInv, hh, hcr, hbody]

theorem parseStmts_inv (ts : List Token) :
    ∀ {ns : List Node}, parseStmts ts = .ok ns → ∀ n ∈ ns, binInv n = true := by
  induction ts using parseStmts.induct with
  | case1 x h1 =>
    intro ns h n hn
    rw [parseStmts_eof h1] at h
    simp only [Except.ok.injEq] at h
    subst h
    simp at hn
  | case2 x h0 h1 e hd =>
    intro ns h
    rw [parseStmts_int_err h1 hd] at h
    exact absurd h (by simp)
  | case3 x h0 h1 rhs rest hd e hrec ih =>
    intro ns h
    rw [parseStmts_int_ok h1 hd, hrec] at h
    exact absurd h (by simp [Except.map])
  | case4 x h0 h1 rhs rest hd out hout ih =>
    intro ns h n hn
    rw [parseStmts_int_ok h1 hd, hout] at h
    simp only [Except.map, Except.ok.injEq] at h
    subst h
    simp only [List.mem_cons] at hn
    rcases hn with hn | hn
    · exact hn ▸ (parseDeclaration_shape hd).2.2.1
    · exact ih hout n hn
  | case5 x h0 h1 h2 e hd =>
    intro ns h
    rw [parseStmts_if_err h2 hd] at h
    exact absurd h (by simp)
  | case6 x h0 h1 h2 rhs rest hd e hrec ih =>
    intro ns h
    rw [parseStmts_if_ok h2 hd, hrec] at h
    exact absurd h (by simp [Except.map])
  | case7 x h0 h1 h2 rhs rest hd out hout ih =>
    intro ns h n hn
    rw [parseStmts_if_ok h2 hd, hout] at h
    simp only [Except.map, Except.ok.injEq] at h
    subst h
    simp only [List.mem_cons] at hn
    rcases hn with hn | hn
    · exact hn ▸ parseConditional_inv hd
    · exact ih hout n hn
  | case8 x h0 h1 h2 h3 e hd =>
    intro ns h
    rw [parseStmts_ident_err h3 hd] at h
    exact absurd h (by simp)
  | case9 x h0 h1 h2 h3 rhs rest hd e hrec ih =>
    intro ns h
    rw [parseStmts_ident_ok h3 hd, hrec] at h
    exact absurd h (by simp [Except.map])
  | case10 x h0 h1 h2 h3 rhs rest hd out hout ih =>
    intro ns h n hn
    rw [parseStmts_ident_ok h3 hd, hout] at h
    simp only [Except.map, Except.ok.injEq] at h
    subst h
    simp only [List.mem_cons] at hn
    rcases hn with hn | hn
    · exact hn ▸ (parseAssignment_inv hd).1
    · exact ih hout n hn
  | case11 x h0 h1 h2 h3 =>
    intro ns h
    rw [parseStmts_undef h0 h1 h2 h3] at h
    exact absurd h (by simp)

theorem parseProgram_maps_parseStmts (ts : List Token) :
    parseProgram ts = (parseStmts ts).map (List.map Node.value) := by
  induction ts using parseStmts.induct with
  | case1 x h1 =>
    rw [parseProgram_eof h1, parseStmts_eof h1]
    simp [Except.map]
  | case2 x h0 h1 e hd =>
    rw [parseProgram_int_err h1 hd, parseStmts_int_err h1 hd]
    simp [Except.map]
  | case3 x h0 h1 rhs rest hd e hrec ih =>
    rw [parseProgram_int_ok h1 hd, parseStmts_int_ok h1 hd, ih, hrec]
    simp [Except.map]
  | case4 x h0 h1 rhs rest hd out hout ih =>
    rw [parseProgram_int_ok h1 hd, parseStmts_int_ok h1 hd, ih, hout]
    simp [Except.map]
  | case5 x h0 h1 h2 e hd =>
    rw [parseProgram_if_err h2 hd, parseStmts_if_err h2 hd]
    simp [Except.map]
  | case6 x h0 h1 h2 rhs rest hd e hrec ih =>
    rw [parseProgram_if_ok h2 hd, parseStmts_if_ok h2 hd, ih, hrec]
    simp [Except.map]
  | case7 x h0 h1 h2 rhs rest hd out hout ih =>
    rw [parseProgram_if_ok h2 hd, parseStmts_if_ok h2 hd, ih, hout]
    simp [Except.map]
  | case8 x h0 h1 h2 h3 e hd =>
    rw [parseProgram_ident_err h3 hd, parseStmts_ident_err h3 hd]
    simp [Except.map]
  | case9 x h0 h1 h2 h3 rhs rest hd e hrec ih =>
    rw [parseProgram_ident_ok h3 hd, parseStmts_ident_ok h3 hd, ih, hrec]
    simp [Except.map]
  | case10 x h0 h1 h2 h3 rhs rest hd out hout ih =>
    rw [parseProgram_ident_ok h3 hd, parseStmts_ident_ok h3 hd, ih, hout]
    simp [Except.map]
  | case11 x h0 h1 h2 h3 =>
    rw [parseProgram_undef h0 h1 h2 h3, parseStmts_undef h0 h1 h2 h3]
    simp [Except.map]

/-- Claim C1: the claim says that after parsing
`"if { a == b } { x = 1; }"` the conditional node still carries the
comparison children (leaves `"a"`/`"b"`) *and* the body.  Evaluating
the embedded `parseConditional` at that token stream shows what the
code actually builds: `node->left = body` overwrites the comparison's
left subtree, so the returned node has the body assignment as its
*left* child, the leaf `"b"` as its right child, and the leaf `"a"`
is dropped (the two-pointer `Node` cannot hold all three). -/
theorem conditional_overwrites_left_comparison_child :
    parseConditional condToks =
      .ok (.mk TOKEN_IDENTIFIER "a"
            (some (.mk TOKEN_IDENTIFIER "x" none (some (.mk TOKEN_NUMBER "1" none none))))
            (some (.mk TOKEN_IDENTIFIER "b" none none)),
           [eofTok]) := by
  simp [parseConditional, parseAssignment, parseExpression, parseFactor, parseExprLoop,
        matchTok, condToks, idTok, numTok, ifTok, lbraceTok, rbraceTok, equalTok, assignTok,
        semiTok, eofTok, createNode, currentTok, Node.type, Node.value, Node.left]

/-- Claim C2: at statement position, a token kind other than `Int`,
`If`, `Identifier` (and not `EndOfInput`) is claimed to raise an
explicit syntax error.  The code's dispatch has no `else` branch:
`stmt` stays uninitialized and the following `printf` reads it —
undefined behavior, not a reported syntax error.  At the failing
input (a `Plus` token at statement position) the embedding reaches
the distinguished `undefinedStmt` outcome, not a `SyntaxError`. -/
theorem statement_dispatch_reads_uninitialized_stmt :
    parseProgram [plusTok, eofTok] = .error (.undefinedStmt TOKEN_PLUS) ∧
    parseStmts [plusTok, eofTok] = .error (.undefinedStmt TOKEN_PLUS) := by
  have h0 : (currentTok [plusTok, eofTok]).type = TOKEN_PLUS := by simp [currentTok, plusTok]
  constructor
  · have h := @parseProgram_undef [plusTok, eofTok]
      (by simp [h0]) (by simp [h0]) (by simp [h0]) (by simp [h0])
    rw [h, h0]
  · have h := @parseStmts_undef [plusTok, eofTok]
      (by simp [h0]) (by simp [h0]) (by simp [h0]) (by simp [h0])
    rw [h, h0]

/-- Claim C3: `match` advances past the current token exactly when its
kind equals the expected kind, and otherwise fails with a
`SyntaxError` naming the expected and the actual kind; the failure
aborts the entire parse with no partial result — for `"int 5;"` the
whole parse returns `SyntaxError` with `Identifier` expected and
`Number` found. -/
theorem match_advances_or_reports_expected_actual :
    (∀ (k : TokenType) (t : Token) (ts : List Token),
        (t.type = k → matchTok k (t :: ts) = .ok ts) ∧
        (t.type ≠ k → matchTok k (t :: ts) = .error (.SyntaxError k t.type))) ∧
    parseProgram int5Toks = .error (.SyntaxError TOKEN_IDENTIFIER TOKEN_NUMBER) ∧
    parseStmts int5Toks = .error (.SyntaxError TOKEN_IDENTIFIER TOKEN_NUMBER) := by
  have hk : (currentTok int5Toks).type = TOKEN_INT := by simp [int5Toks, currentTok, intTok]
  have hd : parseDeclaration int5Toks = .error (.SyntaxError TOKEN_IDENTIFIER TOKEN_NUMBER) := by
    simp [parseDeclaration, matchTok, int5Toks, intTok, numTok, semiTok, eofTok,
          createNode, currentTok]
  refine ⟨fun k t ts => ⟨fun h => by simp [matchTok, h], fun h => by simp [matchTok, h]⟩,
          parseProgram_int_err hk hd, parseStmts_int_err hk hd⟩

/-- Witness for the claim C3 theorem at concrete inputs: a matching
`int` token is consumed, and an identifier expectation meeting a
number token produces the expected/actual `SyntaxError`. -/
theorem match_advances_or_reports_expected_actual_witness :
    matchTok TOKEN_INT [intTok, eofTok] = .ok [eofTok] ∧
    matchTok TOKEN_IDENTIFIER [numTok "5", eofTok] =
      .error (.SyntaxError TOKEN_IDENTIFIER TOKEN_NUMBER) :=
  ⟨(match_advances_or_reports_expected_actual.1 TOKEN_INT intTok [eofTok]).1 (by decide),
   (match_advances_or_reports_expected_actual.1 TOKEN_IDENTIFIER (numTok "5") [eofTok]).2
     (by decide)⟩

/-- Claim C4: `"a + b - c"` parses to the left-deep tree whose root is
the `-` node with the `+` node (leaves `"a"`,`"b"`) as left child and
leaf `"c"` as right child; and in general every `+`/`-` chain over
factors groups left-associatively (`leftChain` wraps the tree built so
far as the left child at every step). -/
theorem expression_chain_left_associative :
    parseExpression exprToks =
      .ok (.mk TOKEN_MINUS ""
            (some (.mk TOKEN_PLUS "" (some (.mk TOKEN_IDENTIFIER "a" none none))
                                     (some (.mk TOKEN_IDENTIFIER "b" none none))))
            (some (.mk TOKEN_IDENTIFIER "c" none none)),
           [eofTok]) ∧
    ∀ (f0 : Token) (ps : List (Token × Token)) (rest : List Token),
      (f0.type = TOKEN_NUMBER ∨ f0.type = TOKEN_IDENTIFIER) →
      (∀ p ∈ ps, (p.1.type = TOKEN_PLUS ∨ p.1.type = TOKEN_MINUS) ∧
                 (p.2.type = TOKEN_NUMBER ∨ p.2.type = TOKEN_IDENTIFIER)) →
      ¬((currentTok rest).type = TOKEN_PLUS ∨ (currentTok rest).type = TOKEN_MINUS) →
      parseExpression (f0 :: (opChainToks ps ++ rest)) =
        .ok (leftChain (createNode f0) ps, rest) := by
  constructor
  · simp [parseExpression, parseFactor, parseExprLoop, exprToks, idTok, plusTok, minusTok,
          eofTok, createNode, currentTok]
  · exact parseExpression_chain

/-- Witness for the claim C4 theorem: the general left-association
statement applied to the concrete chain `7 + 8`. -/
theorem expression_chain_left_associative_witness :
    parseExpression (numTok "7" :: (opChainToks [(plusTok, numTok "8")] ++ [eofTok])) =
      .ok (leftChain (createNode (numTok "7")) [(plusTok, numTok "8")], [eofTok]) :=
  expression_chain_left_associative.2 (numTok "7") [(plusTok, numTok "8")] [eofTok]
    (by decide) (by decide) (by decide)

/-- Counterexample to claim C5 as stated: the claim says a node of
leaf kind (`Number` or `Identifier`) has neither child, but
`parseAssignment` on `"x = 1;"` returns a node of kind
`TOKEN_IDENTIFIER` (the kind is copied from the identifier token)
whose right child is present. -/
theorem identifier_kind_node_carries_child :
    parseAssignment assign1Toks =
      .ok (.mk TOKEN_IDENTIFIER "x" none (some (.mk TOKEN_NUMBER "1" none none)), [eofTok]) ∧
    (Node.mk TOKEN_IDENTIFIER "x" none
      (some (.mk TOKEN_NUMBER "1" none none))).type = TOKEN_IDENTIFIER ∧
    (Node.mk TOKEN_IDENTIFIER "x" none
      (some (.mk TOKEN_NUMBER "1" none none))).right ≠ none := by
  refine ⟨?_, rfl, by simp [Node.right]⟩
  simp [parseAssignment, parseExpression, parseFactor, parseExprLoop, matchTok,
        assign1Toks, idTok, numTok, assignTok, semiTok, eofTok,
        createNode, currentTok, Node.type, Node.value, Node.left]

/-- Claim C5 as amended: every tree delivered by the statement loop
satisfies the binary invariant (`+`/`-` nodes always have both
children, recursively), and the true leaf builders — `parseFactor`
and `parseDeclaration` — return childless nodes.  (Assignment and
conditional nodes carry `Identifier`/`Number` kinds while having
children, so leaf *kind* does not imply childlessness.) -/
theorem produced_trees_satisfy_binary_invariant :
    (∀ (ts : List Token) (ns : List Node),
        parseStmts ts = .ok ns → ∀ n ∈ ns, binInv n = true) ∧
    (∀ (ts r : List Token) (n : Node),
        parseFactor ts = .ok (n, r) → n.left = none ∧ n.right = none) ∧
    (∀ (ts r : List Token) (n : Node),
        parseDeclaration ts = .ok (n, r) → n.left = none ∧ n.right = none) := by
  refine ⟨fun ts ns h => parseStmts_inv ts h, fun ts r n h => ?_,
          fun ts r n h => ⟨(parseDeclaration_shape h).1, (parseDeclaration_shape h).2.1⟩⟩
  rw [(parseFactor_ok h).2.1]
  exact ⟨rfl, rfl⟩

/-- Witness for the amended claim C5 theorem: the invariant holds on
the tree parsed from `"x = 1 + 2;"`, whose `+` node has both
children. -/
theorem produced_trees_satisfy_binary_invariant_witness :
    binInv (.mk TOKEN_IDENTIFIER "x" none
      (some (.mk TOKEN_PLUS "" (some (.mk TOKEN_NUMBER "1" none none))
                               (some (.mk TOKEN_NUMBER "2" none none))))) = true := by
  have hk : (currentTok assignToks).type = TOKEN_IDENTIFIER := by
    simp [assignToks, currentTok, idTok]
  have ha : parseAssignment assignToks =
      .ok (.mk TOKEN_IDENTIFIER "x" none
            (some (.mk TOKEN_PLUS "" (some (.mk TOKEN_NUMBER "1" none none))
                                     (some (.mk TOKEN_NUMBER "2" none none)))),
           [eofTok]) := by
    simp [parseAssignment, parseExpression, parseFactor, parseExprLoop, matchTok,
          assignToks, idTok, numTok, assignTok, plusTok, semiTok, eofTok,
          createNode, currentTok, Node.type, Node.value, Node.left]
  have hs : parseStmts assignToks =
      .ok [.mk TOKEN_IDENTIFIER "x" none
            (some (.mk TOKEN_PLUS "" (some (.mk TOKEN_NUMBER "1" none none))
                                     (some (.mk TOKEN_NUMBER "2" none none))))] := by
    rw [parseStmts_ident_ok hk ha, parseStmts_eof (by simp [currentTok, eofTok])]
    simp [Except.map]
  exact produced_trees_satisfy_binary_invariant.1 assignToks _ hs _ (by simp)

/-- Claim C6: `"int x;"` parses to a single declaration node with
value `"x"` and no children. -/
theorem declaration_parses_to_childless_leaf :
    parseDeclaration declToks = .ok (.mk TOKEN_IDENTIFIER "x" none none, [eofTok]) := by
  simp [parseDeclaration, matchTok, declToks, intTok, idTok, semiTok, eofTok,
        createNode, currentTok]

/-- Claim C7: `"x = 1 + 2;"` parses to an assignment node whose right
child is a `+` node with leaves `"1"` and `"2"`. -/
theorem assignment_right_child_is_plus_tree :
    parseAssignment assignToks =
      .ok (.mk TOKEN_IDENTIFIER "x" none
            (some (.mk TOKEN_PLUS "" (some (.mk TOKEN_NUMBER "1" none none))
                                     (some (.mk TOKEN_NUMBER "2" none none)))),
           [eofTok]) := by
  simp [parseAssignment, parseExpression, parseFactor, parseExprLoop, matchTok,
        assignToks, idTok, numTok, assignTok, plusTok, semiTok, eofTok,
        createNode, currentTok, Node.type, Node.value, Node.left]

/-- Counterexample to claim C8 as stated: the entry point does not
deliver the statement trees.  The inputs `"x = 1;"` and `"x = 2;"`
produce *identical* entry-point results (only the root value `"x"` is
printed) while their statement trees differ — so what the caller
receives cannot be the sequence of statement AST roots. -/
theorem program_output_not_the_statement_trees :
    parseProgram assign1Toks = parseProgram assign2Toks ∧
    parseStmts assign1Toks ≠ parseStmts assign2Toks := by
  have hk1 : (currentTok assign1Toks).type = TOKEN_IDENTIFIER := by
    simp [assign1Toks, currentTok, idTok]
  have hk2 : (currentTok assign2Toks).type = TOKEN_IDENTIFIER := by
    simp [assign2Toks, currentTok, idTok]
  have ha1 : parseAssignment assign1Toks =
      .ok (.mk TOKEN_IDENTIFIER "x" none (some (.mk TOKEN_NUMBER "1" none none)), [eofTok]) := by
    simp [parseAssignment, parseExpression, parseFactor, parseExprLoop, matchTok,
          assign1Toks, idTok, numTok, assignTok, semiTok, eofTok,
          createNode, currentTok, Node.type, Node.value, Node.left]
  have ha2 : parseAssignment assign2Toks =
      .ok (.mk TOKEN_IDENTIFIER "x" none (some (.mk TOKEN_NUMBER "2" none none)), [eofTok]) := by
    simp [parseAssignment, parseExpression, parseFactor, parseExprLoop, matchTok,
          assign2Toks, idTok, numTok, assignTok, semiTok, eofTok,
          createNode, currentTok, Node.type, Node.value, Node.left]
  have heof : (currentTok [eofTok]).type = TOKEN_EOF := by simp [currentTok, eofTok]
  constructor
  · rw [parseProgram_ident_ok hk1 ha1, parseProgram_ident_ok hk2 ha2,
        parseProgram_eof heof]
    simp [Except.map, Node.value]
  · rw [parseStmts_ident_ok hk1 ha1, parseStmts_ident_ok hk2 ha2, parseStmts_eof heof]
    simp [Except.map]

/-- Claim C8 as amended: on success the entry point processes the
statements in source order but delivers only the printed lines — one
root *value* per statement — i.e. exactly the `Node.value` projection
of the ordered statement-tree sequence, never the trees themselves. -/
theorem program_output_is_root_values_of_statements :
    ∀ ts : List Token, parseProgram ts = (parseStmts ts).map (List.map Node.value) :=
  parseProgram_maps_parseStmts

/-- Witness for the amended claim C8 theorem at the token stream of
`"int x;"`. -/
theorem program_output_is_root_values_of_statements_witness :
    parseProgram declToks = (parseStmts declToks).map (List.map Node.value) :=
  program_output_is_root_values_of_statements declToks

/-- Claim C9: two parses of the same immutable token stream produce
identical statement trees and identical entry-point outcomes,
whatever current-token value the global slot holds when each run
starts (in particular whatever a previous run left there): the entry
point's first `getNextToken` overwrites the slot with the stream's
first token, so no state carries over. -/
theorem parse_unaffected_by_stale_global_token :
    ∀ (g1 g2 : Token) (ts : List Token),
      parseStmtsFromState ⟨g1, ts⟩ = parseStmtsFromState ⟨g2, ts⟩ ∧
      parseProgramFromState ⟨g1, ts⟩ = parseProgramFromState ⟨g2, ts⟩ := by
  intro g1 g2 ts
  cases ts <;> exact ⟨rfl, rfl⟩

/-- Witness for the claim C9 theorem: a run whose global slot holds
the `EndOfInput` token a finished first run leaves behind equals a
run starting with an arbitrary stale identifier token. -/
theorem parse_unaffected_by_stale_global_token_witness :
    parseStmtsFromState ⟨eofTok, declToks⟩ = parseStmtsFromState ⟨idTok "stale", declToks⟩ ∧
    parseProgramFromState ⟨eofTok, declToks⟩ = parseProgramFromState ⟨idTok "stale", declToks⟩ :=
  parse_unaffected_by_stale_global_token eofTok (idTok "stale") declToks

/-- Claim C10: the literal `getNextToken` of the reference has an
empty body, so it changes nothing; hence the advance step of `match`
never changes the state — a successful `match` returns the state it
was given, current token included. -/
theorem getNextToken_never_changes_current_token :
    ∀ (s : PState) (k : TokenType) (s' : PState),
      getNextToken s = s ∧
      (matchC k s = .ok s' → s' = s ∧ s'.cur = s.cur) := by
  intro s k s'
  refine ⟨rfl, fun h => ?_⟩
  simp only [matchC, getNextToken] at h
  split at h
  · simp only [Except.ok.injEq] at h
    subst h
    exact ⟨rfl, rfl⟩
  · exact absurd h (by simp)

/-- Witness for the claim C10 theorem at a concrete state: matching
`int` against a state whose current token is the `int` keyword
succeeds and leaves the state untouched. -/
theorem getNextToken_never_changes_current_token_witness :
    getNextToken ⟨intTok, []⟩ = ⟨intTok, []⟩ ∧
    ((⟨intTok, []⟩ : PState) = ⟨intTok, []⟩ ∧
      (PState.cur ⟨intTok, []⟩ = PState.cur ⟨intTok, []⟩)) :=
  ⟨(getNextToken_never_changes_current_token ⟨intTok, []⟩ TOKEN_INT ⟨intTok, []⟩).1,
   (getNextToken_never_changes_current_token ⟨intTok, []⟩ TOKEN_INT ⟨intTok, []⟩).2 rfl⟩
